import Mathlib

/-!
Verification of the request/response orchestration layer of the
MedAnalysis application (`medanalysis_ollama.py`).

The Python source is shallowly embedded: strings are `List Char`,
the HTTP exchanges of the generation endpoint and of the liveness
endpoint are abstracted as oracles (one outcome per attempt), and the
retry loops become fuel-bounded recursion (the fuel is exactly the
number of loop iterations the `while retry_count <= max_retries`
condition admits).  Side effects that the claims mention (image
preprocessing, the fixed 2-second sleep, the HTTP submission itself)
are recorded in an event trace.
-/

/-- Convert a Lean string literal to the `List Char` representation used
for Python strings throughout this development. -/
def strL (s : String) : List Char := s.toList

/-- Decimal rendering of a natural number, as a character list (models
Python's str interpolation of an int). -/
def natStr (n : Nat) : List Char := (Nat.repr n).toList

/-- Scan of the haystack for the needle, returning the index (counted
from `i`) of the first position where the needle is a prefix of the
remaining haystack.  Models the search underlying Python's
`str.find` and `in`. -/
def findSubAux (needle : List Char) : List Char → Nat → Option Nat
  | [], i => if needle.isPrefixOf [] then some i else none
  | c :: rest, i =>
    if needle.isPrefixOf (c :: rest) then some i else findSubAux needle rest (i + 1)

/-- Python `hay.find(needle)`: index of the first occurrence, `-1` if absent. -/
def pyFind (hay needle : List Char) : Int :=
  match findSubAux needle hay 0 with
  | some i => (i : Int)
  | none => -1

/-- Python `needle in hay` (substring containment test). -/
def containsSub (hay needle : List Char) : Bool :=
  (findSubAux needle hay 0).isSome

theorem isPrefixOf_eq_true_iff : ∀ {l₁ l₂ : List Char}, l₁.isPrefixOf l₂ = true ↔ l₁ <+: l₂ := by
  intro l₁
  induction l₁ with
  | nil => intro l₂; simp [List.isPrefixOf]
  | cons a l ih =>
    intro l₂
    cases l₂ with
    | nil => simp [List.isPrefixOf]
    | cons b m =>
      rw [List.isPrefixOf, Bool.and_eq_true, List.cons_prefix_cons]
      simp [ih]

theorem findSubAux_some (needle : List Char) :
    ∀ (hay : List Char) (i j : Nat), findSubAux needle hay i = some j →
      i ≤ j ∧ needle.isPrefixOf (hay.drop (j - i)) = true ∧
        ∀ k < j - i, ¬ needle.isPrefixOf (hay.drop k) = true := by
  intro hay
  induction hay with
  | nil =>
    intro i j h
    by_cases hp : needle.isPrefixOf ([] : List Char) = true
    · simp [findSubAux, hp] at h
      subst h
      refine ⟨le_refl _, by simpa using hp, ?_⟩
      intro k hk
      omega
    · simp [findSubAux] at h
      exact absurd (by simp [h.1]) hp
  | cons c rest ih =>
    intro i j h
    by_cases hp : needle.isPrefixOf (c :: rest) = true
    · simp [findSubAux, hp] at h
      subst h
      refine ⟨le_refl _, by simpa using hp, ?_⟩
      intro k hk
      omega
    · rw [findSubAux, if_neg hp] at h
      obtain ⟨hle, hpre, hmin⟩ := ih (i + 1) j h
      refine ⟨by omega, ?_, ?_⟩
      · have : j - i = (j - (i + 1)) + 1 := by omega
        rw [this]
        simpa using hpre
      · intro k hk
        match k with
        | 0 => simpa using hp
        | k' + 1 =>
          have : k' < j - (i + 1) := by omega
          have := hmin k' this
          simpa using this

theorem findSubAux_none (needle : List Char) :
    ∀ (hay : List Char) (i : Nat), findSubAux needle hay i = none →
      ∀ k, ¬ needle.isPrefixOf (hay.drop k) = true := by
  intro hay
  induction hay with
  | nil =>
    intro i h k
    by_cases hp : needle.isPrefixOf ([] : List Char) = true
    · simp [findSubAux, hp] at h
    · simpa using hp
  | cons c rest ih =>
    intro i h k
    by_cases hp : needle.isPrefixOf (c :: rest) = true
    · simp [findSubAux, hp] at h
    · rw [findSubAux, if_neg hp] at h
      match k with
      | 0 => simpa using hp
      | k' + 1 => simpa using ih (i + 1) h k'

theorem occurs_iff_exists_drop (needle hay : List Char) :
    needle <:+: hay ↔ ∃ k, needle <+: hay.drop k := by
  constructor
  · rintro ⟨s, t, rfl⟩
    exact ⟨s.length, by simp⟩
  · rintro ⟨k, t, ht⟩
    refine ⟨hay.take k, t, ?_⟩
    rw [List.append_assoc, ht, List.take_append_drop]

theorem containsSub_iff_occurs (hay needle : List Char) :
    containsSub hay needle = true ↔ needle <:+: hay := by
  unfold containsSub
  rw [occurs_iff_exists_drop]
  constructor
  · intro h
    rw [Option.isSome_iff_exists] at h
    obtain ⟨j, hj⟩ := h
    obtain ⟨-, hpre, -⟩ := findSubAux_some needle hay 0 j hj
    exact ⟨j, isPrefixOf_eq_true_iff.mp (by simpa using hpre)⟩
  · rintro ⟨k, hk⟩
    cases hfind : findSubAux needle hay 0 with
    | some j => simp
    | none =>
      exact absurd (isPrefixOf_eq_true_iff.mpr hk) (findSubAux_none needle hay 0 hfind k)

/-- The literal report-start marker searched for in the model response
(source line 134). -/
def reportMarker : List Char := strL "### 1."

/-- Python slice `rc[i:]` for the nonnegative index delivered by a
successful find. -/
def pySliceFrom (rc : List Char) (i : Int) : List Char := rc.drop i.toNat

/-- Marker-based extraction of the structured report (source lines
133-138): slice from the first occurrence of the marker when found,
otherwise the full response text. -/
def cleaned_report (response_content : List Char) : List Char :=
  let report_start := pyFind response_content reportMarker
  if report_start ≠ -1 then pySliceFrom response_content report_start
  else response_content

/-- Outcome of one HTTP attempt against the generation endpoint, as the
orchestrators observe it.  `response` carries the HTTP status, the
result of parsing the response body for its response field (`.error`
holds the text of the exception raised by a failed parse), and the raw
body text used in the non-200 error message.  `connErr` and
`timeoutErr` are the two `requests` exceptions caught separately by the
image path; `raised` is any other exception, carrying its Python
string rendering. -/
inductive GenOutcome where
  | response (status : Nat) (body : Except (List Char) (List Char)) (text : List Char)
  | connErr (msg : List Char)
  | timeoutErr (msg : List Char)
  | raised (msg : List Char)

/-- Events recorded while an orchestrator runs: one image-preprocessing
pass, one HTTP submission (numbered from 0), one fixed 2-second sleep. -/
inductive Ev where
  | preprocess
  | attempt (k : Nat)
  | sleep
deriving DecidableEq

/-- Result of the body of one iteration of the image retry loop
(source lines 79-149): `.ok` is the cleaned report returned on HTTP
200, `.error` is the `last_error` message recorded otherwise. -/
def imgAttempt (o : GenOutcome) : Except (List Char) (List Char) :=
  match o with
  | .response status body text =>
    if status = 200 then
      match body with
      | .ok r => .ok (cleaned_report r)
      | .error m => .error (strL "⚠️ Unexpected Error: " ++ m)
    else
      .error (strL "❌ Error: HTTP " ++ natStr status ++ strL " - " ++ text)
  | .connErr _ =>
    .error (strL "❌ Connection Error: Cannot connect to Ollama. Please ensure it is running at http://localhost:11434")
  | .timeoutErr _ =>
    .error (strL "❌ Timeout Error: Request to MedGemma took too long.")
  | .raised m => .error (strL "⚠️ Unexpected Error: " ++ m)

/-- Rendering of `last_error` when the loop exits (Python's f-string
prints the name `None` when no error was ever recorded). -/
def optMsg (le : Option (List Char)) : List Char :=
  match le with
  | some e => e
  | none => strL "None"

/-- The suffix appended to the final failure message: source line 154
and line 216 interpolate `max_retries` itself. -/
def failSuffix (max_retries : Nat) : List Char :=
  strL " (after " ++ natStr max_retries ++ strL " retries)"

/-- The image retry loop (source lines 78-154).  `att k` is the outcome
of HTTP attempt number `k`; the fuel argument counts the iterations the
`while retry_count <= max_retries` guard still admits, so the loop is
entered with fuel `max_retries + 1`.  Each iteration re-runs the image
preprocessing (lines 79-97 sit inside the loop), submits, and - in the
`finally` block - sleeps and increments the counter even when the body
is about to return a successful report.  Returns the event trace and
the returned string. -/
def imgLoop (att : Nat → GenOutcome) (max_retries : Nat) :
    Nat → Nat → Option (List Char) → List Ev × List Char
  | 0, _, le => ([], optMsg le ++ failSuffix max_retries)
  | fuel + 1, k, _ =>
    match imgAttempt (att k) with
    | .ok rep => ([.preprocess, .attempt k, .sleep], rep)
    | .error e =>
      let rest := imgLoop att max_retries fuel (k + 1) (some e)
      (.preprocess :: .attempt k :: .sleep :: rest.1, rest.2)

/-- `analyze_medical_image` (source lines 73-154), as the string it
returns for a given oracle of attempt outcomes. -/
def analyze_medical_image (att : Nat → GenOutcome) (max_retries : Nat) : List Char :=
  (imgLoop att max_retries (max_retries + 1) 0 none).2

/-- The event trace of one `analyze_medical_image` call. -/
def imgTrace (att : Nat → GenOutcome) (max_retries : Nat) : List Ev :=
  (imgLoop att max_retries (max_retries + 1) 0 none).1

/-- Result of the body of one iteration of the text retry loop (source
lines 162-210): the raw response field on HTTP 200 (no marker
trimming), the `last_error` message otherwise.  The text path has a
single bare `except Exception` clause, so every exception - connection
errors and timeouts included - produces the same message shape. -/
def txtAttempt (o : GenOutcome) : Except (List Char) (List Char) :=
  match o with
  | .response status body text =>
    if status = 200 then
      match body with
      | .ok r => .ok r
      | .error m => .error (strL "❌ Text analysis error: " ++ m)
    else
      .error (strL "❌ Error analyzing text: HTTP " ++ natStr status ++ strL " - " ++ text)
  | .connErr m => .error (strL "❌ Text analysis error: " ++ m)
  | .timeoutErr m => .error (strL "❌ Text analysis error: " ++ m)
  | .raised m => .error (strL "❌ Text analysis error: " ++ m)

/-- The text retry loop (source lines 161-216).  On success it returns
at once; on failure it increments `retry_count` and sleeps only when
another attempt is still allowed (`if retry_count <= max_retries`,
source lines 212-214). -/
def txtLoop (att : Nat → GenOutcome) (max_retries : Nat) :
    Nat → Nat → Option (List Char) → List Ev × List Char
  | 0, _, le => ([], optMsg le ++ failSuffix max_retries)
  | fuel + 1, k, _ =>
    match txtAttempt (att k) with
    | .ok rep => ([.attempt k], rep)
    | .error e =>
      let rest := txtLoop att max_retries fuel (k + 1) (some e)
      ((Ev.attempt k :: if k + 1 ≤ max_retries then [Ev.sleep] else []) ++ rest.1, rest.2)

/-- `analyze_medical_text` (source lines 156-216), as the string it
returns for a given oracle of attempt outcomes. -/
def analyze_medical_text (att : Nat → GenOutcome) (max_retries : Nat) : List Char :=
  (txtLoop att max_retries (max_retries + 1) 0 none).2

/-- The event trace of one `analyze_medical_text` call. -/
def txtTrace (att : Nat → GenOutcome) (max_retries : Nat) : List Ev :=
  (txtLoop att max_retries (max_retries + 1) 0 none).1

/-- One entry of the model listing returned by the liveness endpoint;
`name` is `none` when the entry lacks a name field (so that the
subscript `model["name"]` raises). -/
structure ModelEntry where
  name : Option (List Char)

/-- The list-comprehension `[model["name"] for model in models]`
(source line 58): succeeds only when every entry carries a name, and
preserves the server's order. -/
def extractNames : List ModelEntry → Option (List (List Char))
  | [] => some []
  | m :: ms =>
    match m.name with
    | none => none
    | some v =>
      match extractNames ms with
      | none => none
      | some tl => some (v :: tl)

/-- Outcome of the liveness query as `check_ollama_connection` observes
it: a network failure (any exception raised by `requests.get`), or a
response with its HTTP status and - when the body parses as JSON - the
model listing under the `models` key (`.get("models", [])` defaults a
missing key to the empty list, so a parsed body always yields a list). -/
inductive ProbeOutcome where
  | netError
  | response (status : Nat) (body : Option (List ModelEntry))

/-- `check_ollama_connection` (source lines 52-63): a total function -
every exception path lands in the bare `except` and yields
`(False, [])`. -/
def check_ollama_connection (o : ProbeOutcome) : Bool × List (List Char) :=
  match o with
  | .netError => (false, [])
  | .response status body =>
    if status = 200 then
      match body with
      | some models =>
        match extractNames models with
        | some model_names => (true, model_names)
        | none => (false, [])
      | none => (false, [])
    else (false, [])

/-- `check_model_loaded` (source lines 65-71): false when disconnected,
otherwise `any(model_name in model for model in available_models)` -
Python's `in` on strings, i.e. substring containment. -/
def check_model_loaded (o : ProbeOutcome) (model_name : List Char) : Bool :=
  let probed := check_ollama_connection o
  if probed.1 = false then false
  else probed.2.any (fun m => containsSub m model_name)

/-- How the UI shell displays an orchestrator result (source lines
313-318 and 352-357): an error box when the report contains the
character `❌` or the two-codepoint sequence `⚠️`, the rendered
markdown report otherwise. -/
inductive Rendered where
  | errorBox (report : List Char)
  | reportBox (report : List Char)
deriving DecidableEq

/-- The UI shell's success-versus-failure classification of a report
string (source lines 313 and 352). -/
def renderReport (report : List Char) : Rendered :=
  if containsSub report (strL "❌") || containsSub report (strL "⚠️") then
    .errorBox report
  else
    .reportBox report

/-- The whitespace characters stripped by Python's default `str.strip`
(restricted to the ASCII whitespace set). -/
def isPyWhitespace (c : Char) : Bool :=
  c = ' ' || c = '\t' || c = '\n' || c = '\x0d' || c = '\x0b' || c = '\x0c'

/-- Python `s.strip()` with no argument: drop leading and trailing
whitespace. -/
def pyStrip (s : List Char) : List Char :=
  ((s.dropWhile isPyWhitespace).reverse.dropWhile isPyWhitespace).reverse

/-- What the text-analysis branch of the UI shell does once its button
is pressed (source lines 341-357). -/
inductive UIAction where
  | warnEmptyInput
  | errNotConnected
  | errModelNotLoaded
  | rendered (r : Rendered)
deriving DecidableEq

/-- The text-analysis branch (source lines 341-357): empty-after-strip
input is warned about before anything else; only the final branch
invokes `analyze_medical_text`, so only it produces HTTP attempt
events.  Returns the action taken and the events of the branch. -/
def textAnalysisBranch (text_input : List Char) (is_connected model_loaded : Bool)
    (att : Nat → GenOutcome) (max_retries : Nat) : UIAction × List Ev :=
  if pyStrip text_input = [] then (.warnEmptyInput, [])
  else if is_connected = false then (.errNotConnected, [])
  else if model_loaded = false then (.errModelNotLoaded, [])
  else (.rendered (renderReport (analyze_medical_text att max_retries)),
        txtTrace att max_retries)

/-- The image-analysis branch of the UI shell once preconditions hold
(source lines 303-322), seen through its file-system footprint: the
staged temporary file is created (`open(image_path, "wb")`), the
report is rendered (error box or report box, with no file-system
effect either way), and the staged file is removed when it exists.
The file system is a list of paths; `report` stands for the string
`analyze_medical_image` returned. -/
def runImageBranch (fs : List (List Char)) (image_path : List Char)
    (report : List Char) : Rendered × List (List Char) :=
  let fsStaged := image_path :: fs
  let shown := renderReport report
  let fsCleaned :=
    if image_path ∈ fsStaged then fsStaged.filter (fun q => q ≠ image_path)
    else fsStaged
  (shown, fsCleaned)

/-- The resize computed at source lines 88-92, with Python's float
arithmetic modelled exactly over `ℚ`: `aspect_ratio = width / height`,
`new_width = 800`, `new_height = int(new_width / aspect_ratio)` -
`int` truncates, which on this positive value is the floor. -/
def resize_dims (width height : Nat) : Nat × Nat :=
  (800, ⌊(800 : ℚ) / ((width : ℚ) / (height : ℚ))⌋₊)

/-- Recognizer for HTTP-submission events. -/
def isAttempt : Ev → Bool
  | .attempt _ => true
  | _ => false

/-- Number of image-preprocessing passes in a trace. -/
def countPre (t : List Ev) : Nat := t.countP (fun e => e == Ev.preprocess)

/-- Number of HTTP submissions in a trace. -/
def countAtt (t : List Ev) : Nat := t.countP isAttempt

/-- Number of fixed 2-second sleeps in a trace. -/
def countSleep (t : List Ev) : Nat := t.countP (fun e => e == Ev.sleep)

theorem imgLoop_shape (att : Nat → GenOutcome) (mr : Nat) :
    ∀ (fuel k : Nat) (le : Option (List Char)), 0 < fuel →
      countPre (imgLoop att mr fuel k le).1 = countAtt (imgLoop att mr fuel k le).1 ∧
      countSleep (imgLoop att mr fuel k le).1 = countAtt (imgLoop att mr fuel k le).1 ∧
      0 < countAtt (imgLoop att mr fuel k le).1 ∧
      ∃ t', (imgLoop att mr fuel k le).1 = t' ++ [Ev.sleep] := by
  intro fuel
  induction fuel with
  | zero => intro k le h; exact absurd h (by simp)
  | succ f ih =>
    intro k le _
    cases hA : imgAttempt (att k) with
    | ok rep =>
      refine ⟨?_, ?_, ?_, [Ev.preprocess, Ev.attempt k], ?_⟩ <;>
        simp [imgLoop, hA, countPre, countAtt, countSleep, isAttempt]
    | error e =>
      by_cases hf : 0 < f
      · obtain ⟨h1, h2, h3, t', ht'⟩ := ih (k + 1) (some e) hf
        refine ⟨?_, ?_, ?_, Ev.preprocess :: Ev.attempt k :: Ev.sleep :: t', ?_⟩
        · simp [imgLoop, hA, countPre, countAtt, isAttempt, List.countP_cons] at h1 ⊢
          omega
        · simp [imgLoop, hA, countSleep, countAtt, isAttempt, List.countP_cons] at h2 ⊢
          omega
        · simp [imgLoop, hA, countAtt, isAttempt, List.countP_cons]
        · simp [imgLoop, hA, ht']
      · have hf0 : f = 0 := by omega
        subst hf0
        refine ⟨?_, ?_, ?_, [Ev.preprocess, Ev.attempt k], ?_⟩ <;>
          simp [imgLoop, hA, countPre, countAtt, countSleep, isAttempt]

theorem txtLoop_shape (att : Nat → GenOutcome) (mr : Nat) :
    ∀ (fuel k : Nat) (le : Option (List Char)), k + fuel = mr + 1 → 0 < fuel →
      countSleep (txtLoop att mr fuel k le).1 + 1 = countAtt (txtLoop att mr fuel k le).1 ∧
      ∃ t' j, (txtLoop att mr fuel k le).1 = t' ++ [Ev.attempt j] := by
  intro fuel
  induction fuel with
  | zero => intro k le _ h; exact absurd h (by simp)
  | succ f ih =>
    intro k le hinv _
    cases hA : txtAttempt (att k) with
    | ok rep =>
      refine ⟨?_, [], k, ?_⟩ <;> simp [txtLoop, hA, countSleep, countAtt, isAttempt]
    | error e =>
      by_cases hf : 0 < f
      · have hk1 : k + 1 ≤ mr := by omega
        obtain ⟨h1, t', j, ht'⟩ := ih (k + 1) (some e) (by omega) hf
        refine ⟨?_, Ev.attempt k :: Ev.sleep :: t', j, ?_⟩
        · simp [txtLoop, hA, hk1, countSleep, countAtt, isAttempt, List.countP_cons] at h1 ⊢
          omega
        · simp [txtLoop, hA, hk1, ht']
      · have hf0 : f = 0 := by omega
        subst hf0
        have hk1 : ¬ k + 1 ≤ mr := by omega
        refine ⟨?_, [], k, ?_⟩ <;>
          simp [txtLoop, hA, hk1, countSleep, countAtt, isAttempt]

theorem imgLoop_allFail (att : Nat → GenOutcome) (mr : Nat) :
    ∀ (fuel k : Nat) (le : Option (List Char)) (e : List Char), 0 < fuel →
      (∀ j, k ≤ j → j < k + fuel → ∃ e', imgAttempt (att j) = .error e') →
      imgAttempt (att (k + fuel - 1)) = .error e →
      (imgLoop att mr fuel k le).2 = e ++ failSuffix mr ∧
      countAtt (imgLoop att mr fuel k le).1 = fuel := by
  intro fuel
  induction fuel with
  | zero => intro k le e h; exact absurd h (by simp)
  | succ f ih =>
    intro k le e _ hall hlast
    by_cases hf : 0 < f
    · obtain ⟨e0, he0⟩ := hall k (le_refl k) (by omega)
      have hrec := ih (k + 1) (some e0) e hf
        (fun j hj1 hj2 => hall j (by omega) (by omega))
        (by
          have : k + 1 + f - 1 = k + (f + 1) - 1 := by omega
          rw [this]
          exact hlast)
      constructor
      · simp [imgLoop, he0, hrec.1]
      · simp [imgLoop, he0, countAtt, isAttempt, List.countP_cons]
        have := hrec.2
        simp [countAtt] at this
        omega
    · have hf0 : f = 0 := by omega
      subst hf0
      have hk : k + 1 - 1 = k := by omega
      rw [hk] at hlast
      constructor
      · simp [imgLoop, hlast, optMsg]
      · simp [imgLoop, hlast, countAtt, isAttempt]

theorem txtLoop_allFail (att : Nat → GenOutcome) (mr : Nat) :
    ∀ (fuel k : Nat) (le : Option (List Char)) (e : List Char), 0 < fuel →
      (∀ j, k ≤ j → j < k + fuel → ∃ e', txtAttempt (att j) = .error e') →
      txtAttempt (att (k + fuel - 1)) = .error e →
      (txtLoop att mr fuel k le).2 = e ++ failSuffix mr ∧
      countAtt (txtLoop att mr fuel k le).1 = fuel := by
  intro fuel
  induction fuel with
  | zero => intro k le e h; exact absurd h (by simp)
  | succ f ih =>
    intro k le e _ hall hlast
    by_cases hf : 0 < f
    · obtain ⟨e0, he0⟩ := hall k (le_refl k) (by omega)
      have hrec := ih (k + 1) (some e0) e hf
        (fun j hj1 hj2 => hall j (by omega) (by omega))
        (by
          have : k + 1 + f - 1 = k + (f + 1) - 1 := by omega
          rw [this]
          exact hlast)
      constructor
      · simp [txtLoop, he0, hrec.1]
      · simp [txtLoop, he0, countAtt, isAttempt, List.countP_cons]
        have := hrec.2
        simp [countAtt] at this
        rcases Classical.em (k + 1 ≤ mr) with hle | hle <;>
          simp [hle, List.countP_cons, isAttempt] <;> omega
    · have hf0 : f = 0 := by omega
      subst hf0
      have hk : k + 1 - 1 = k := by omega
      rw [hk] at hlast
      constructor
      · simp [txtLoop, hlast, optMsg]
      · simp [txtLoop, hlast, countAtt, isAttempt]

theorem cleaned_report_spec (r : List Char) :
    (reportMarker <:+: r →
      ∃ i, reportMarker <+: r.drop i ∧ (∀ j < i, ¬ reportMarker <+: r.drop j) ∧
        cleaned_report r = r.drop i) ∧
    (¬ reportMarker <:+: r → cleaned_report r = r) := by
  constructor
  · intro hocc
    have hc : containsSub r reportMarker = true := (containsSub_iff_occurs r reportMarker).mpr hocc
    rw [containsSub, Option.isSome_iff_exists] at hc
    obtain ⟨i, hi⟩ := hc
    obtain ⟨-, hpre, hmin⟩ := findSubAux_some reportMarker r 0 i hi
    refine ⟨i, ?_, ?_, ?_⟩
    · exact isPrefixOf_eq_true_iff.mp (by simpa using hpre)
    · intro j hj hcon
      exact hmin j (by omega) (by simpa using isPrefixOf_eq_true_iff.mpr hcon)
    · simp only [cleaned_report, pyFind, hi]
      have : ((i : Int) ≠ -1) := by omega
      simp [this, pySliceFrom]
  · intro hnocc
    have hc : findSubAux reportMarker r 0 = none := by
      cases hfind : findSubAux reportMarker r 0 with
      | none => rfl
      | some j =>
        exact absurd ((containsSub_iff_occurs r reportMarker).mp
          (by simp [containsSub, hfind])) hnocc
    simp [cleaned_report, pyFind, hc]

/-- C2: for every generation-endpoint response with HTTP status 200,
`analyze_medical_image` returns the substring of the response text
starting at the first occurrence of the literal marker `### 1.`
(verbatim, to the end) when the marker occurs, and the full response
text unmodified when it does not. -/
theorem C2_marker_extraction (att : Nat → GenOutcome) (max_retries : Nat)
    (r text : List Char) (h : att 0 = .response 200 (.ok r) text) :
    analyze_medical_image att max_retries = cleaned_report r ∧
    (reportMarker <:+: r →
      ∃ i, reportMarker <+: r.drop i ∧ (∀ j < i, ¬ reportMarker <+: r.drop j) ∧
        cleaned_report r = r.drop i) ∧
    (¬ reportMarker <:+: r → cleaned_report r = r) := by
  refine ⟨?_, (cleaned_report_spec r).1, (cleaned_report_spec r).2⟩
  simp [analyze_medical_image, imgLoop, imgAttempt, h]

/-- Witness for C2 at a concrete 200 response whose text carries model
chatter before the marker. -/
theorem C2_marker_extraction_witness :
    analyze_medical_image
      (fun _ => .response 200 (.ok (strL "Sure, here is the report. ### 1. Image Type: X-ray")) []) 2
      = strL "### 1. Image Type: X-ray" := by
  have h := C2_marker_extraction
    (fun _ => .response 200 (.ok (strL "Sure, here is the report. ### 1. Image Type: X-ray")) [])
    2 (strL "Sure, here is the report. ### 1. Image Type: X-ray") [] rfl
  rw [h.1]
  decide

/-- C1 (amended): when every attempt fails, both orchestrators return
the last recorded error message with the suffix reporting the retry
budget `max_retries` itself (not the attempt count), while the number
of HTTP attempts performed equals `max_retries + 1`. -/
theorem C1_retry_exhaustion (ia ta : Nat → GenOutcome) (max_retries : Nat)
    (eImg eTxt : List Char)
    (hImgAll : ∀ j, j ≤ max_retries → ∃ e', imgAttempt (ia j) = .error e')
    (hImgLast : imgAttempt (ia max_retries) = .error eImg)
    (hTxtAll : ∀ j, j ≤ max_retries → ∃ e', txtAttempt (ta j) = .error e')
    (hTxtLast : txtAttempt (ta max_retries) = .error eTxt) :
    analyze_medical_image ia max_retries = eImg ++ failSuffix max_retries ∧
    countAtt (imgTrace ia max_retries) = max_retries + 1 ∧
    analyze_medical_text ta max_retries = eTxt ++ failSuffix max_retries ∧
    countAtt (txtTrace ta max_retries) = max_retries + 1 := by
  have h1 := imgLoop_allFail ia max_retries (max_retries + 1) 0 none eImg (by omega)
    (fun j _ hj2 => hImgAll j (by omega)) (by simpa using hImgLast)
  have h2 := txtLoop_allFail ta max_retries (max_retries + 1) 0 none eTxt (by omega)
    (fun j _ hj2 => hTxtAll j (by omega)) (by simpa using hTxtLast)
  exact ⟨h1.1, h1.2, h2.1, h2.2⟩

/-- Witness for the amended C1: one retry allowed, every attempt
failing, for both orchestrators. -/
theorem C1_retry_exhaustion_witness :
    analyze_medical_image (fun _ => .timeoutErr []) 1
      = strL "❌ Timeout Error: Request to MedGemma took too long." ++ failSuffix 1 ∧
    countAtt (imgTrace (fun _ => .timeoutErr []) 1) = 2 ∧
    analyze_medical_text (fun _ => .connErr (strL "boom")) 1
      = (strL "❌ Text analysis error: " ++ strL "boom") ++ failSuffix 1 ∧
    countAtt (txtTrace (fun _ => .connErr (strL "boom")) 1) = 2 :=
  C1_retry_exhaustion (fun _ => .timeoutErr []) (fun _ => .connErr (strL "boom")) 1 _ _
    (fun _ _ => ⟨_, rfl⟩) rfl (fun _ _ => ⟨_, rfl⟩) rfl

/-- Counterexample to C1 as stated: with the default `max_retries = 2`
and every attempt timing out, the returned failure string reads
`(after 2 retries)` - it carries `max_retries`, and the digit `3`
(the attempt count `max_retries + 1` the claim says is reported)
occurs nowhere in it. -/
theorem C1_reported_count_counterexample :
    analyze_medical_image (fun _ => .timeoutErr []) 2
      = strL "❌ Timeout Error: Request to MedGemma took too long. (after 2 retries)" ∧
    containsSub
      (analyze_medical_image (fun _ => .timeoutErr []) 2) (strL "3") = false := by
  constructor <;> decide

/-- C3 (amended): image preprocessing is performed once per HTTP
attempt, not once per call - the preprocessing steps sit inside the
retry loop, so a retry redoes them together with the submission. -/
theorem C3_preprocess_per_attempt (att : Nat → GenOutcome) (max_retries : Nat) :
    countPre (imgTrace att max_retries) = countAtt (imgTrace att max_retries) :=
  (imgLoop_shape att max_retries (max_retries + 1) 0 none (by omega)).1

/-- Counterexample to C3 as stated: with the default `max_retries = 2`
and every attempt timing out, preprocessing runs three times - once
per attempt - not exactly once per call. -/
theorem C3_preprocess_counterexample :
    countPre (imgTrace (fun _ => .timeoutErr []) 2) = 3 ∧ (3 : Nat) ≠ 1 := by
  constructor <;> decide

/-- C4 (amended): orchestrator results are plain strings, and the UI
shell classifies a report as a failure exactly when the text contains
the character `❌` or the sequence `⚠️`; a successful report whose
text happens to contain either marker is therefore rendered as an
error. -/
theorem C4_render_classification (report : List Char) :
    renderReport report = .errorBox report ↔
      (strL "❌" <:+: report ∨ strL "⚠️" <:+: report) := by
  have hbool : (containsSub report (strL "❌") || containsSub report (strL "⚠️")) = true ↔
      (strL "❌" <:+: report ∨ strL "⚠️" <:+: report) := by
    rw [Bool.or_eq_true, containsSub_iff_occurs, containsSub_iff_occurs]
  rw [← hbool]
  unfold renderReport
  cases h : (containsSub report (strL "❌") || containsSub report (strL "⚠️")) with
  | false => simp [h]
  | true => simp [h]

/-- Counterexample to C4 as stated: a 200 response whose report text
contains `⚠️` is returned by `analyze_medical_image` as a success, yet
the UI shell classifies the very same string as an error - the
classification depends on marker characters in the text, not on a
result variant. -/
theorem C4_render_classification_counterexample :
    analyze_medical_image
      (fun _ => .response 200 (.ok (strL "### 1. Chest X-ray. ⚠️ Verify with a radiologist.")) []) 2
      = strL "### 1. Chest X-ray. ⚠️ Verify with a radiologist." ∧
    renderReport (strL "### 1. Chest X-ray. ⚠️ Verify with a radiologist.")
      = .errorBox (strL "### 1. Chest X-ray. ⚠️ Verify with a radiologist.") := by
  constructor <;> decide

theorem extractNames_order : ∀ (models : List ModelEntry) (names : List (List Char)),
    extractNames models = some names → models.map ModelEntry.name = names.map some := by
  intro models
  induction models with
  | nil =>
    intro names h
    simp [extractNames] at h
    subst h
    simp
  | cons m ms ih =>
    intro names h
    rw [extractNames] at h
    cases hm : m.name with
    | none => simp [hm] at h
    | some v =>
      rw [hm] at h
      cases htl : extractNames ms with
      | none => simp [htl] at h
      | some tl =>
        rw [htl] at h
        simp at h
        subst h
        simp [hm, ih tl htl]

/-- C5: the connectivity prober is a total function of the observed
query outcome - it never propagates an exception.  Any network
failure, any non-200 status, an unparsable body, and a model entry
lacking a name all yield `(false, [])`; a 200 response whose listing
parses yields `(true, names)` with the names in the server's order
(the extracted names are the entries' name fields, position by
position). -/
theorem C5_probe_never_raises :
    check_ollama_connection .netError = (false, []) ∧
    (∀ status body, status ≠ 200 →
      check_ollama_connection (.response status body) = (false, [])) ∧
    (∀ status, check_ollama_connection (.response status none) = (false, [])) ∧
    (∀ models, extractNames models = none →
      check_ollama_connection (.response 200 (some models)) = (false, [])) ∧
    (∀ models names, extractNames models = some names →
      check_ollama_connection (.response 200 (some models)) = (true, names) ∧
        models.map ModelEntry.name = names.map some) := by
  refine ⟨rfl, ?_, ?_, ?_, ?_⟩
  · intro status body hs
    simp [check_ollama_connection, hs]
  · intro status
    rcases Classical.em (status = 200) with h | h <;>
      simp [check_ollama_connection, h]
  · intro models hext
    simp [check_ollama_connection, hext]
  · intro models names hext
    exact ⟨by simp [check_ollama_connection, hext], extractNames_order models names hext⟩

/-- Witness for C5: a 500 response, a 200 response with an unparsable
body, a 200 response with a nameless entry, and a healthy 200 listing. -/
theorem C5_probe_never_raises_witness :
    check_ollama_connection (.response 500 none) = (false, []) ∧
    check_ollama_connection (.response 200 none) = (false, []) ∧
    check_ollama_connection (.response 200 (some [⟨some (strL "llama3")⟩, ⟨none⟩])) = (false, []) ∧
    check_ollama_connection
      (.response 200 (some [⟨some (strL "llama3")⟩, ⟨some (strL "medgemma")⟩]))
      = (true, [strL "llama3", strL "medgemma"]) :=
  ⟨C5_probe_never_raises.2.1 500 none (by decide),
   C5_probe_never_raises.2.2.1 200,
   C5_probe_never_raises.2.2.2.1 [⟨some (strL "llama3")⟩, ⟨none⟩] rfl,
   (C5_probe_never_raises.2.2.2.2 [⟨some (strL "llama3")⟩, ⟨some (strL "medgemma")⟩]
     [strL "llama3", strL "medgemma"] rfl).1⟩

/-- C6: given a connected probe result, `check_model_loaded` returns
true exactly when the configured name is a substring of some entry of
the available-models list; in particular an exact element matches, and
so does any superstring entry (any entry of the form
`pre ++ name ++ suf`). -/
theorem C6_model_substring_match (o : ProbeOutcome) (model_name : List Char)
    (hconn : (check_ollama_connection o).1 = true) :
    (check_model_loaded o model_name = true ↔
      ∃ m ∈ (check_ollama_connection o).2, model_name <:+: m) ∧
    (model_name ∈ (check_ollama_connection o).2 →
      check_model_loaded o model_name = true) ∧
    (∀ pre suf, pre ++ model_name ++ suf ∈ (check_ollama_connection o).2 →
      check_model_loaded o model_name = true) := by
  have hmain : check_model_loaded o model_name = true ↔
      ∃ m ∈ (check_ollama_connection o).2, model_name <:+: m := by
    rw [check_model_loaded]
    simp only [hconn]
    rw [if_neg (by simp)]
    rw [List.any_eq_true]
    constructor
    · rintro ⟨m, hm, hc⟩
      exact ⟨m, hm, (containsSub_iff_occurs m model_name).mp hc⟩
    · rintro ⟨m, hm, hc⟩
      exact ⟨m, hm, (containsSub_iff_occurs m model_name).mpr hc⟩
  refine ⟨hmain, ?_, ?_⟩
  · intro hmem
    exact hmain.mpr ⟨model_name, hmem, ⟨[], [], by simp⟩⟩
  · intro pre suf hmem
    exact hmain.mpr ⟨pre ++ model_name ++ suf, hmem, ⟨pre, suf, rfl⟩⟩

/-- Witness for C6: the configured bare name `medgemma` matches the
tagged entry `amsaravi/medgemma-4b-it:q6` of a connected listing. -/
theorem C6_model_substring_match_witness :
    check_model_loaded
      (.response 200 (some [⟨some (strL "amsaravi/medgemma-4b-it:q6")⟩]))
      (strL "medgemma") = true :=
  (C6_model_substring_match
      (.response 200 (some [⟨some (strL "amsaravi/medgemma-4b-it:q6")⟩]))
      (strL "medgemma") (by decide)).1.mpr
    ⟨strL "amsaravi/medgemma-4b-it:q6", by decide,
      ⟨strL "amsaravi/", strL "-4b-it:q6", by decide⟩⟩

/-- C7: text input that is empty or consists only of whitespace is
rejected by the UI shell before any network call - the branch takes
the warning action, `analyze_medical_text` is never invoked, and the
branch's event list contains no HTTP attempt. -/
theorem C7_empty_text_rejected (text_input : List Char)
    (is_connected model_loaded : Bool) (att : Nat → GenOutcome) (max_retries : Nat)
    (hws : ∀ c ∈ text_input, isPyWhitespace c = true) :
    textAnalysisBranch text_input is_connected model_loaded att max_retries
      = (.warnEmptyInput, []) ∧
    countAtt (textAnalysisBranch text_input is_connected model_loaded att max_retries).2
      = 0 := by
  have hstrip : pyStrip text_input = [] := by
    unfold pyStrip
    rw [List.dropWhile_eq_nil_iff.mpr hws]
    simp
  refine ⟨?_, ?_⟩ <;> simp [textAnalysisBranch, hstrip, countAtt]

/-- Witness for C7 on a concrete whitespace-only input. -/
theorem C7_empty_text_rejected_witness :
    textAnalysisBranch (strL "  \n\t  ") true true (fun _ => .timeoutErr []) 2
      = (.warnEmptyInput, []) ∧
    countAtt (textAnalysisBranch (strL "  \n\t  ") true true (fun _ => .timeoutErr []) 2).2
      = 0 :=
  C7_empty_text_rejected (strL "  \n\t  ") true true (fun _ => .timeoutErr []) 2 (by decide)

/-- C8: for positive input dimensions the submitted image is 800 wide,
and its height is the floor of 800 divided by the aspect ratio - the
exact natural quotient `800 * height / width`, so the aspect ratio is
preserved within integer-rounding tolerance.  Python's float
arithmetic is modelled as exact arithmetic over `ℚ`. -/
theorem C8_resize_width_800 (width height : Nat)
    (hw : 0 < width) (hh : 0 < height) :
    (resize_dims width height).1 = 800 ∧
    (resize_dims width height).2 = 800 * height / width ∧
    width * (800 * height / width) ≤ 800 * height ∧
    800 * height < width * (800 * height / width) + width := by
  have hw' : ((width : ℚ)) ≠ 0 := by positivity
  have hh' : ((height : ℚ)) ≠ 0 := by positivity
  have heq : (800 : ℚ) / ((width : ℚ) / (height : ℚ))
      = ((800 * height : Nat) : ℚ) / ((width : Nat) : ℚ) := by
    push_cast
    field_simp
  have hfloor : (resize_dims width height).2 = 800 * height / width := by
    rw [resize_dims]
    simp only [heq]
    exact Nat.floor_div_eq_div (800 * height) width
  have hdm := Nat.div_add_mod (800 * height) width
  have hlt := Nat.mod_lt (800 * height) hw
  exact ⟨rfl, hfloor, by omega, by omega⟩

/-- Witness for C8 at a 1024 x 768 input: the resize yields 800 x 600. -/
theorem C8_resize_width_800_witness :
    (0 : Nat) < 1024 ∧ (0 : Nat) < 768 ∧ resize_dims 1024 768 = (800, 600) := by
  have h := C8_resize_width_800 1024 768 (by norm_num) (by norm_num)
  refine ⟨by norm_num, by norm_num, ?_⟩
  have h2 : (resize_dims 1024 768).2 = 600 := by
    rw [h.2.1]
  exact Prod.ext h.1 h2

/-- C9: the staged temporary image file is gone once the image-analysis
branch finishes, whatever the report says (success or failure
rendering), and no other path of the file system is touched. -/
theorem C9_temp_file_removed (fs : List (List Char)) (image_path report : List Char) :
    image_path ∉ (runImageBranch fs image_path report).2 ∧
    (∀ q, q ∈ (runImageBranch fs image_path report).2 ↔ q ∈ fs ∧ q ≠ image_path) := by
  have hmem : image_path ∈ image_path :: fs := List.mem_cons_self image_path fs
  constructor
  · intro hcon
    simp [runImageBranch, hmem] at hcon
  · intro q
    simp [runImageBranch, hmem]

/-- Witness for C9: after a failing analysis of a staged file, the
staged path is gone and an unrelated path survives. -/
theorem C9_temp_file_removed_witness :
    strL "temp_uploaded_image.png"
      ∉ (runImageBranch [strL "notes.txt"] (strL "temp_uploaded_image.png") (strL "❌ Timeout")).2 ∧
    (strL "notes.txt"
      ∈ (runImageBranch [strL "notes.txt"] (strL "temp_uploaded_image.png") (strL "❌ Timeout")).2 ↔
      strL "notes.txt" ∈ [strL "notes.txt"] ∧ strL "notes.txt" ≠ strL "temp_uploaded_image.png") :=
  ⟨(C9_temp_file_removed [strL "notes.txt"] (strL "temp_uploaded_image.png") (strL "❌ Timeout")).1,
   (C9_temp_file_removed [strL "notes.txt"] (strL "temp_uploaded_image.png") (strL "❌ Timeout")).2
     (strL "notes.txt")⟩

/-- C10: in `analyze_medical_image` the fixed delay follows every HTTP
attempt - the trace holds exactly one sleep per attempt and always
ends with a sleep, so the delay runs even after a successful attempt
(before the result is returned) and after the final failed attempt; in
`analyze_medical_text` the delay occurs only between attempts: one
sleep fewer than attempts, and the trace ends with an attempt, never a
sleep. -/
theorem C10_sleep_placement (ia ta : Nat → GenOutcome) (max_retries : Nat) :
    countSleep (imgTrace ia max_retries) = countAtt (imgTrace ia max_retries) ∧
    (∃ t', imgTrace ia max_retries = t' ++ [Ev.sleep]) ∧
    countSleep (txtTrace ta max_retries) + 1 = countAtt (txtTrace ta max_retries) ∧
    (∃ t' j, txtTrace ta max_retries = t' ++ [Ev.attempt j]) := by
  have h1 := imgLoop_shape ia max_retries (max_retries + 1) 0 none (by omega)
  have h2 := txtLoop_shape ta max_retries (max_retries + 1) 0 none (by omega) (by omega)
  exact ⟨h1.2.1, h1.2.2.2, h2.1, h2.2⟩

/-- Witness for the amended C3: a run whose first attempt fails and
whose second succeeds still preprocesses once per attempt. -/
theorem C3_preprocess_per_attempt_witness :
    countPre (imgTrace
        (fun k => if k = 0 then .connErr [] else .response 200 (.ok (strL "report")) []) 2)
      = countAtt (imgTrace
        (fun k => if k = 0 then .connErr [] else .response 200 (.ok (strL "report")) []) 2) :=
  C3_preprocess_per_attempt
    (fun k => if k = 0 then .connErr [] else .response 200 (.ok (strL "report")) []) 2

/-- Witness for the amended C4 at a marker-free report. -/
theorem C4_render_classification_witness :
    renderReport (strL "All clear.") = .errorBox (strL "All clear.") ↔
      (strL "❌" <:+: strL "All clear." ∨ strL "⚠️" <:+: strL "All clear.") :=
  C4_render_classification (strL "All clear.")

/-- Witness for C10 at single-attempt successful runs of both
orchestrators. -/
theorem C10_sleep_placement_witness :
    countSleep (imgTrace (fun _ => .response 200 (.ok (strL "img")) []) 0)
      = countAtt (imgTrace (fun _ => .response 200 (.ok (strL "img")) []) 0) ∧
    (∃ t', imgTrace (fun _ => .response 200 (.ok (strL "img")) []) 0 = t' ++ [Ev.sleep]) ∧
    countSleep (txtTrace (fun _ => .response 200 (.ok (strL "txt")) []) 0) + 1
      = countAtt (txtTrace (fun _ => .response 200 (.ok (strL "txt")) []) 0) ∧
    (∃ t' j, txtTrace (fun _ => .response 200 (.ok (strL "txt")) []) 0
      = t' ++ [Ev.attempt j]) :=
  C10_sleep_placement (fun _ => .response 200 (.ok (strL "img")) [])
    (fun _ => .response 200 (.ok (strL "txt")) []) 0
